import Mathlib

/-!
# Verification of `vezda/plot_utils.py`

A shallow embedding of the parts of `src/vezda/plot_utils.py` that carry
observable logic: keyboard-driven cursor navigation (`next_wave`,
`previous_wave`, `switch_experiments`), the wiggle-plot rendering policy of
`plotWiggles` (trace-count thresholds, peak normalization, in-place rescaling
of the supplied array), the 2D image clipping step of `image_viewer`, and the
string-formatting helpers `set_ylabel` and `wave_title`.

Numeric array entries are modelled as rationals (`ℚ`); a 2D numpy array is a
`List (List ℚ)` of its rows.  Python's integer `%` with a positive modulus is
`Int.emod`.  In-place numpy mutation (`X /= scaleFactor`,
`volume[volume > vmax] = vmin`) is modelled by returning the post-call
contents of the supplied array.
-/

namespace Vezda

/-! ## Cursor navigation (`next_wave`, `previous_wave`, lines 1079–1096)

`next_wave` executes `ax.source_index = (ax.source_index + 1) % Ns`;
`previous_wave` executes `ax.source_index = (ax.source_index - 1) % Ns`.
Python's `%` with positive modulus is floored modulo, i.e. `Int.emod`. -/

def next_wave_index (Ns c : ℤ) : ℤ := (c + 1) % Ns

def previous_wave_index (Ns c : ℤ) : ℤ := (c - 1) % Ns

/-- Applying `next_wave`'s cursor update `k` times in succession. -/
def iterate_next_wave (Ns : ℤ) : ℕ → ℤ → ℤ
  | 0, c => c
  | k + 1, c => iterate_next_wave Ns k (next_wave_index Ns c)

/-! ## Dataset switching (`Plotter.__init__` lines 958–960,
`switch_experiments` lines 992–999)

`Plotter.__init__` stores `experiments = [original, reciprocal]` and
`index = 0`.  `switch_experiments` sets `Ne = 1` if `experiments[1] is None`
else `Ne = 2`, and on key `'r'` sets `plotter.index = (plotter.index + 1) % Ne`
(any other key leaves the index unchanged). -/

def plotter_initial_index : ℕ := 0

/-- Number of datasets `Ne`: 1 when `reciprocal` is `None`, else 2. -/
def num_experiments (hasReciprocal : Bool) : ℕ := if hasReciprocal then 2 else 1

/-- The index update performed by one `switch_experiments` call for a given
key-press event. -/
def switch_experiments_index (key : String) (hasReciprocal : Bool) (index : ℕ) : ℕ :=
  if key = "r" then (index + 1) % num_experiments hasReciprocal else index

/-- The index update for the `'r'` key specifically. -/
def switch_index (hasReciprocal : Bool) (index : ℕ) : ℕ :=
  (index + 1) % num_experiments hasReciprocal

/-- Applying `k` successive `'r'`-key switch events. -/
def iterate_switch (hasReciprocal : Bool) : ℕ → ℕ → ℕ
  | 0, i => i
  | k + 1, i => iterate_switch hasReciprocal k (switch_index hasReciprocal i)

/-! ## Wiggle rendering (`plotWiggles`, lines 490–560)

`plotWiggles` receives a 2D array `X` of `N = X.shape[0]` traces.  Its branch
structure is:

* `N > 1` and `N <= 18`: call `ax.set_yticks(interval)` /
  `ax.set_yticklabels(interval)`, compute
  `scaleFactor = np.max(np.ptp(X, axis=1))`, execute `X /= scaleFactor` in
  place when `scaleFactor != 0`, and draw each trace as an offset line plot
  `interval[n] + X[n, :]` with fills;
* `N > 18 and N <= 70`: same, but without the tick-label calls;
* `N > 70`: draw `X` with `ax.pcolormesh` (rasterized colormapped grid),
  no division;
* `N == 1`: draw the single trace `X[0, :]` as a filled line plot, no offset
  stacking, no tick-label calls, no division.

`np.ptp(row)` is `max(row) - min(row)`.  The record `WiggleRender` captures
the observable effects the claims are about: which drawing mode ran, whether
the per-trace tick labels were set, whether the in-place divide executed, and
the contents of the supplied array `X` after the call. -/

/-- `np.max` over a list (the source only applies it to nonempty data). -/
def listMax : List ℚ → ℚ
  | [] => 0
  | a :: t => t.foldl max a

/-- `np.min` over a list (the source only applies it to nonempty data). -/
def listMin : List ℚ → ℚ
  | [] => 0
  | a :: t => t.foldl min a

/-- `np.ptp` of one trace: peak-to-peak displacement `max - min`. -/
def ptp (l : List ℚ) : ℚ := listMax l - listMin l

/-- `np.max(np.ptp(X, axis=1))`: the largest peak-to-peak displacement over
all traces. -/
def scaleFactor (X : List (List ℚ)) : ℚ := listMax (X.map ptp)

/-- Observable outcome of one `plotWiggles` call. -/
structure WiggleRender where
  /-- `ax.set_yticks(interval)` / `ax.set_yticklabels(interval)` were called. -/
  yticksSet : Bool
  /-- The traces were drawn as offset-stacked line plots (the `ax.plot` /
  `ax.fill_between` loop over `range(N)`). -/
  stackedLines : Bool
  /-- The array was drawn with `ax.pcolormesh` (rasterized grid). -/
  rasterGrid : Bool
  /-- The in-place division `X /= scaleFactor` executed. -/
  divideInvoked : Bool
  /-- The contents of the supplied array `X` after the call returns
  (`X /= scaleFactor` mutates it in place). -/
  outX : List (List ℚ)
  deriving Repr, DecidableEq

/-- The in-place rescale `X /= scaleFactor` applied to every entry. -/
def divideAll (X : List (List ℚ)) (s : ℚ) : List (List ℚ) :=
  X.map (fun row => row.map (fun v => v / s))

/-- Shallow embedding of `plotWiggles` (lines 490–560), restricted to its
observable effects on `X` and its drawing-mode policy. -/
def plotWigglesRun (X : List (List ℚ)) : WiggleRender :=
  let N := X.length
  if 1 < N then
    if N ≤ 18 then
      let s := scaleFactor X
      if s ≠ 0 then ⟨true, true, false, true, divideAll X s⟩
      else ⟨true, true, false, false, X⟩
    else if 18 < N ∧ N ≤ 70 then
      let s := scaleFactor X
      if s ≠ 0 then ⟨false, true, false, true, divideAll X s⟩
      else ⟨false, true, false, false, X⟩
    else
      ⟨false, false, true, false, X⟩
  else
    ⟨false, false, false, false, X⟩

/-! ## 2D image rendering (`image_viewer`, lines 783–872)

When `Z is None` (2D rendering), `image_viewer` executes
`volume[volume > plotParams['vmax']] = plotParams['vmin']` — an in-place
boolean-mask assignment replacing every entry strictly greater than `vmax`
with `vmin` — and then draws the array with `ax.pcolormesh`.  The function
below returns the contents of the supplied `volume` array after the call. -/

structure PlotParams where
  vmin : ℚ
  vmax : ℚ
  au : String
  xu : String
  yu : String
  zu : String
  data_title : String
  impulse_title : String
  deriving Repr, DecidableEq

/-- The values of `default_params()` (lines 75–124) relevant here:
`vmin = 0.0`, `vmax = 1.0`, all unit strings empty, `data_title = 'Data'`,
`impulse_title = 'Impulse Response'`. -/
def default_params : PlotParams :=
  ⟨0, 1, "", "", "", "", "Data", "Impulse Response"⟩

/-- Shallow embedding of `image_viewer`'s 2D clipping step (line 814): the
contents of the supplied `volume` after the in-place mask assignment. -/
def image_viewer_clip (pp : PlotParams) (volume : List (List ℚ)) : List (List ℚ) :=
  volume.map (fun row => row.map (fun v => if v > pp.vmax then pp.vmin else v))

/-! ## Label and title formatting (`set_ylabel` lines 409–486,
`wave_title` lines 1113–1189)

The `flag` string parameter takes only the documented values
`'data'`, `'impulse'`, `'left'`, `'right'`; it is modelled as an inductive
type.  Python's `'%0.2f' % v` is modelled by `fmt2`: round the magnitude to
two decimal places and print with exactly two fractional digits (the float
rounding details do not matter for the values used in the claims). -/

inductive Flag where
  | data
  | impulse
  | left
  | right
  deriving Repr, DecidableEq

/-- Python's `'%0.2f' % q`: the sign of `q`, then `|q|` rounded to two
decimal places (`⌊100 * |q| + 1/2⌋`, computed on the reduced
numerator/denominator with integer arithmetic) printed with exactly two
fractional digits. -/
def fmt2 (q : ℚ) : String :=
  let m : ℤ := if q.num < 0 then -q.num else q.num
  let n : ℤ := (200 * m + (q.den : ℤ)).fdiv (2 * (q.den : ℤ))
  (if q.num < 0 then "-" else "") ++ toString (n / 100) ++ "." ++
    (if n % 100 < 10 then "0" else "") ++ toString (n % 100)

/-- Shallow embedding of `set_ylabel` (lines 409–486).  `coordinates` is the
first row of the coordinate array (`coordinates[0, :]`, `none` for Python
`None`); its length is `coordinates.shape[1]`.  Branches that Python falls
through without reassigning `ylabel` return the bare base label. -/
def set_ylabel (N : ℕ) (coordinates : Option (List ℚ)) (id_number : ℤ)
    (flag : Flag) (pp : PlotParams) : String :=
  let ylabel := match flag with
    | .right => "Source"
    | _ => "Receiver"
  if N = 1 then
    let au := pp.au
    match coordinates with
    | some coords =>
      let xu := pp.xu
      let yu := pp.yu
      match coords with
      | [x, y] =>
        if au ≠ "" ∧ xu ≠ "" ∧ yu ≠ "" then
          "Amplitude (" ++ au ++ ") [" ++ ylabel ++ " " ++ toString id_number ++
            " @ (" ++ fmt2 x ++ " " ++ xu ++ ", " ++ fmt2 y ++ " " ++ yu ++ ")]"
        else if au = "" ∧ xu ≠ "" ∧ yu ≠ "" then
          "Amplitude [" ++ ylabel ++ " " ++ toString id_number ++
            " @ (" ++ fmt2 x ++ " " ++ xu ++ ", " ++ fmt2 y ++ " " ++ yu ++ ")]"
        else if au ≠ "" ∧ xu = "" ∧ yu = "" then
          "Amplitude (" ++ au ++ ") [" ++ ylabel ++ " " ++ toString id_number ++
            " @ (" ++ fmt2 x ++ ", " ++ fmt2 y ++ ")]"
        else if au = "" ∧ xu = "" ∧ yu = "" then
          "Amplitude [" ++ ylabel ++ " " ++ toString id_number ++
            " @ (" ++ fmt2 x ++ ", " ++ fmt2 y ++ ")]"
        else ylabel
      | [x, y, z] =>
        let zu := pp.zu
        if au ≠ "" ∧ xu ≠ "" ∧ yu ≠ "" ∧ zu ≠ "" then
          "Amplitude (" ++ au ++ ") [" ++ ylabel ++ " " ++ toString id_number ++
            " @ (" ++ fmt2 x ++ " " ++ xu ++ ", " ++ fmt2 y ++ " " ++ yu ++
            ", " ++ fmt2 z ++ " " ++ zu ++ ")]"
        else if au = "" ∧ xu ≠ "" ∧ yu ≠ "" ∧ zu ≠ "" then
          "Amplitude [" ++ ylabel ++ " " ++ toString id_number ++
            " @ (" ++ fmt2 x ++ " " ++ xu ++ ", " ++ fmt2 y ++ " " ++ yu ++
            ", " ++ fmt2 z ++ " " ++ zu ++ ")]"
        else if au ≠ "" ∧ xu = "" ∧ yu = "" ∧ zu = "" then
          "Amplitude (" ++ au ++ ") [" ++ ylabel ++ " " ++ toString id_number ++
            " @ (" ++ fmt2 x ++ ", " ++ fmt2 y ++ ", " ++ fmt2 z ++ ")]"
        else if au = "" ∧ xu = "" ∧ yu = "" ∧ zu = "" then
          "Amplitude [" ++ ylabel ++ " " ++ toString id_number ++
            " @ (" ++ fmt2 x ++ ", " ++ fmt2 y ++ ", " ++ fmt2 z ++ ")]"
        else ylabel
      | _ => ylabel
    | none =>
      if au ≠ "" then
        "Amplitude (" ++ au ++ ") [" ++ ylabel ++ " " ++ toString id_number ++ "]"
      else
        "Amplitude [" ++ ylabel ++ " " ++ toString id_number ++ "]"
  else ylabel

/-- Shallow embedding of `wave_title` (lines 1113–1189).  Only the
projections the source reads are passed: `sourceNumber = sourceNumbers[index]`,
`numSources = len(sourceNumbers)`, and `sourcePoint = sourcePoints[index, :]`
(`none` for Python `None`); the length of `sourcePoint` is
`sourcePoints.shape[1]`.  `none` is returned where Python would raise
(`title` referenced while unbound, or `None.shape`); any non-`'data'` flag
takes the source's `else:  # flag == 'impulse'` branch. -/
def wave_title (sourceNumber : ℤ) (numSources : ℕ) (sourcePoint : Option (List ℚ))
    (flag : Flag) (pp : PlotParams) : Option String :=
  let xu := pp.xu
  let yu := pp.yu
  match flag with
  | .data =>
    let dt := pp.data_title
    match sourcePoint with
    | none =>
      some (dt ++ " [Record " ++ toString sourceNumber ++ "/" ++
        toString numSources ++ "]")
    | some pt =>
      match pt with
      | [x, y] =>
        if xu ≠ "" ∧ yu ≠ "" then
          some (dt ++ " [Source " ++ toString sourceNumber ++ " @ (" ++
            fmt2 x ++ " " ++ xu ++ ", " ++ fmt2 y ++ " " ++ yu ++ ")]")
        else
          some (dt ++ " [Source " ++ toString sourceNumber ++ " @ (" ++
            fmt2 x ++ ", " ++ fmt2 y ++ ")]")
      | [x, y, z] =>
        let zu := pp.zu
        if xu ≠ "" ∧ yu ≠ "" ∧ zu ≠ "" then
          some (dt ++ " [Source " ++ toString sourceNumber ++ " @ (" ++
            fmt2 x ++ " " ++ xu ++ ", " ++ fmt2 y ++ " " ++ yu ++ ", " ++
            fmt2 z ++ " " ++ zu ++ ")]")
        else
          some (dt ++ " [Source " ++ toString sourceNumber ++ " @ (" ++
            fmt2 x ++ ", " ++ fmt2 y ++ ", " ++ fmt2 z ++ ")]")
      | _ => none
  | _ =>
    let it := pp.impulse_title
    match sourcePoint with
    | some pt =>
      match pt with
      | [x, y] =>
        if xu ≠ "" ∧ yu ≠ "" then
          some (it ++ " [$\\bf\x7bz\x7d$ @ (" ++ fmt2 x ++ " " ++ xu ++ ", " ++
            fmt2 y ++ " " ++ yu ++ ")]")
        else if xu = "" ∧ yu = "" then
          some (it ++ " [$\\bf\x7bz\x7d$ @ (" ++ fmt2 x ++ ", " ++ fmt2 y ++ ")]")
        else none
      | [x, y, z] =>
        let zu := pp.zu
        if xu ≠ "" ∧ yu ≠ "" ∧ zu ≠ "" then
          some (it ++ " [$\\bf\x7bz\x7d$ @ (" ++ fmt2 x ++ " " ++ xu ++ ", " ++
            fmt2 y ++ " " ++ yu ++ ", " ++ fmt2 z ++ " " ++ zu ++ ")]")
        else if xu = "" ∧ yu = "" ∧ zu = "" then
          some (it ++ " [$\\bf\x7bz\x7d$ @ (" ++ fmt2 x ++ ", " ++ fmt2 y ++
            ", " ++ fmt2 z ++ ")]")
        else none
      | _ => none
    | none => none

/-! ### Lemmas about peak normalization -/

lemma le_foldl_max : ∀ (t : List ℚ) (a : ℚ), a ≤ t.foldl max a := by
  intro t
  induction t with
  | nil => intro a; exact le_refl a
  | cons b t ih =>
    intro a
    exact le_trans (le_max_left a b) (ih (max a b))

lemma foldl_min_le : ∀ (t : List ℚ) (a : ℚ), t.foldl min a ≤ a := by
  intro t
  induction t with
  | nil => intro a; exact le_refl a
  | cons b t ih =>
    intro a
    exact le_trans (ih (min a b)) (min_le_left a b)

lemma ptp_nonneg (l : List ℚ) : 0 ≤ ptp l := by
  cases l with
  | nil => simp [ptp, listMax, listMin]
  | cons a t =>
    have h1 : a ≤ listMax (a :: t) := le_foldl_max t a
    have h2 : listMin (a :: t) ≤ a := foldl_min_le t a
    unfold ptp
    linarith

lemma listMax_nonneg (l : List ℚ) (h : ∀ x ∈ l, 0 ≤ x) : 0 ≤ listMax l := by
  cases l with
  | nil => simp [listMax]
  | cons a t =>
    have ha : 0 ≤ a := h a (List.mem_cons_self a t)
    exact le_trans ha (le_foldl_max t a)

lemma scaleFactor_nonneg (X : List (List ℚ)) : 0 ≤ scaleFactor X := by
  apply listMax_nonneg
  intro x hx
  obtain ⟨r, _, hr⟩ := List.mem_map.mp hx
  exact hr ▸ ptp_nonneg r

lemma scaleFactor_pos (X : List (List ℚ)) (h : scaleFactor X ≠ 0) :
    0 < scaleFactor X :=
  lt_of_le_of_ne (scaleFactor_nonneg X) (Ne.symm h)

lemma div_mono {s : ℚ} (hs : 0 < s) : Monotone (fun v : ℚ => v / s) := by
  intro a b hab
  exact div_le_div_of_nonneg_right hab hs.le

lemma foldl_max_div {s : ℚ} (hs : 0 < s) :
    ∀ (t : List ℚ) (a : ℚ),
      (t.map (fun v => v / s)).foldl max (a / s) = (t.foldl max a) / s := by
  intro t
  induction t with
  | nil => intro a; rfl
  | cons b t ih =>
    intro a
    show (t.map (fun v => v / s)).foldl max (max (a / s) (b / s)) = _
    rw [← (div_mono hs).map_max, ih (max a b)]
    rfl

lemma foldl_min_div {s : ℚ} (hs : 0 < s) :
    ∀ (t : List ℚ) (a : ℚ),
      (t.map (fun v => v / s)).foldl min (a / s) = (t.foldl min a) / s := by
  intro t
  induction t with
  | nil => intro a; rfl
  | cons b t ih =>
    intro a
    show (t.map (fun v => v / s)).foldl min (min (a / s) (b / s)) = _
    rw [← (div_mono hs).map_min, ih (min a b)]
    rfl

lemma listMax_map_div {s : ℚ} (hs : 0 < s) (l : List ℚ) :
    listMax (l.map (fun v => v / s)) = listMax l / s := by
  cases l with
  | nil => simp [listMax]
  | cons a t => exact foldl_max_div hs t a

lemma listMin_map_div {s : ℚ} (hs : 0 < s) (l : List ℚ) :
    listMin (l.map (fun v => v / s)) = listMin l / s := by
  cases l with
  | nil => simp [listMin]
  | cons a t => exact foldl_min_div hs t a

lemma ptp_map_div {s : ℚ} (hs : 0 < s) (l : List ℚ) :
    ptp (l.map (fun v => v / s)) = ptp l / s := by
  unfold ptp
  rw [listMax_map_div hs, listMin_map_div hs, sub_div]

lemma scaleFactor_divideAll {s : ℚ} (hs : 0 < s) (X : List (List ℚ)) :
    scaleFactor (divideAll X s) = scaleFactor X / s := by
  unfold scaleFactor divideAll
  rw [List.map_map]
  have h : (ptp ∘ fun row => row.map (fun v => v / s)) =
      (fun row : List ℚ => ptp row / s) := by
    funext r
    exact ptp_map_div hs r
  rw [h]
  have h2 : (fun row : List ℚ => ptp row / s) =
      ((fun v : ℚ => v / s) ∘ ptp) := rfl
  rw [h2, ← List.map_map, listMax_map_div hs]

lemma divideAll_one (X : List (List ℚ)) : divideAll X 1 = X := by
  unfold divideAll
  simp

lemma divideAll_length (X : List (List ℚ)) (s : ℚ) :
    (divideAll X s).length = X.length := by
  simp [divideAll]

lemma foldl_max_le (c : ℚ) : ∀ (t : List ℚ) (a : ℚ), a ≤ c → (∀ x ∈ t, x ≤ c) →
    t.foldl max a ≤ c := by
  intro t
  induction t with
  | nil => intro a ha _; exact ha
  | cons b t ih =>
    intro a ha hb
    exact ih (max a b) (max_le ha (hb b (List.mem_cons_self b t)))
      (fun x hx => hb x (List.mem_cons_of_mem b hx))

lemma le_foldl_min (c : ℚ) : ∀ (t : List ℚ) (a : ℚ), c ≤ a → (∀ x ∈ t, c ≤ x) →
    c ≤ t.foldl min a := by
  intro t
  induction t with
  | nil => intro a ha _; exact ha
  | cons b t ih =>
    intro a ha hb
    exact ih (min a b) (le_min ha (hb b (List.mem_cons_self b t)))
      (fun x hx => hb x (List.mem_cons_of_mem b hx))

lemma listMax_eq_zero (l : List ℚ) (h : ∀ x ∈ l, x = 0) : listMax l = 0 := by
  cases l with
  | nil => rfl
  | cons a t =>
    have ha : a = 0 := h a (List.mem_cons_self a t)
    refine le_antisymm ?_ ?_
    · exact foldl_max_le 0 t a ha.le (fun x hx => (h x (List.mem_cons_of_mem a hx)).le)
    · exact le_trans ha.ge (le_foldl_max t a)

lemma listMin_eq_zero (l : List ℚ) (h : ∀ x ∈ l, x = 0) : listMin l = 0 := by
  cases l with
  | nil => rfl
  | cons a t =>
    have ha : a = 0 := h a (List.mem_cons_self a t)
    refine le_antisymm ?_ ?_
    · exact le_trans (foldl_min_le t a) ha.le
    · exact le_foldl_min 0 t a ha.ge (fun x hx => (h x (List.mem_cons_of_mem a hx)).ge)

lemma ptp_of_all_zero (r : List ℚ) (h : ∀ v ∈ r, v = 0) : ptp r = 0 := by
  unfold ptp
  rw [listMax_eq_zero r h, listMin_eq_zero r h, sub_zero]

lemma scaleFactor_of_all_zero (X : List (List ℚ)) (h : ∀ r ∈ X, ∀ v ∈ r, v = 0) :
    scaleFactor X = 0 := by
  unfold scaleFactor
  apply listMax_eq_zero
  intro x hx
  obtain ⟨r, hr, hrx⟩ := List.mem_map.mp hx
  exact hrx ▸ ptp_of_all_zero r (h r hr)

lemma map_eq_self {α : Type} (l : List α) (f : α → α) (h : ∀ x ∈ l, f x = x) :
    l.map f = l := by
  induction l with
  | nil => rfl
  | cons a t ih =>
    simp only [List.map_cons]
    rw [h a (List.mem_cons_self a t), ih (fun x hx => h x (List.mem_cons_of_mem a hx))]

lemma forall₂_map_self {α β : Type} (R : β → α → Prop) (f : α → β) (l : List α)
    (h : ∀ x ∈ l, R (f x) x) : List.Forall₂ R (l.map f) l := by
  induction l with
  | nil => exact List.Forall₂.nil
  | cons a t ih =>
    exact List.Forall₂.cons (h a (List.mem_cons_self a t))
      (ih (fun x hx => h x (List.mem_cons_of_mem a hx)))

/-! ### Branch characterizations of `plotWigglesRun` -/

lemma plotWigglesRun_single (X : List (List ℚ)) (h : ¬ 1 < X.length) :
    plotWigglesRun X = ⟨false, false, false, false, X⟩ := by
  simp [plotWigglesRun, h]

lemma plotWigglesRun_small (X : List (List ℚ)) (h1 : 1 < X.length)
    (h2 : X.length ≤ 18) :
    plotWigglesRun X =
      if scaleFactor X ≠ 0 then ⟨true, true, false, true, divideAll X (scaleFactor X)⟩
      else ⟨true, true, false, false, X⟩ := by
  simp [plotWigglesRun, h1, h2]

lemma plotWigglesRun_mid (X : List (List ℚ)) (h1 : 18 < X.length)
    (h2 : X.length ≤ 70) :
    plotWigglesRun X =
      if scaleFactor X ≠ 0 then ⟨false, true, false, true, divideAll X (scaleFactor X)⟩
      else ⟨false, true, false, false, X⟩ := by
  have h0 : 1 < X.length := by omega
  have h18 : ¬ X.length ≤ 18 := by omega
  simp [plotWigglesRun, h0, h18, h1, h2]

lemma plotWigglesRun_large (X : List (List ℚ)) (h : 70 < X.length) :
    plotWigglesRun X = ⟨false, false, true, false, X⟩ := by
  have h0 : 1 < X.length := by omega
  have h18 : ¬ X.length ≤ 18 := by omega
  have h70 : ¬ X.length ≤ 70 := by omega
  simp [plotWigglesRun, h0, h18, h70]

/-! ### Lemmas about cursor arithmetic -/

lemma next_wave_index_bounds (Ns c : ℤ) (hN : 1 ≤ Ns) :
    0 ≤ next_wave_index Ns c ∧ next_wave_index Ns c < Ns := by
  unfold next_wave_index
  constructor
  · exact Int.emod_nonneg _ (by omega)
  · exact Int.emod_lt_of_pos _ (by omega)

lemma emod_add_emod_cancel (N a b : ℤ) : (a % N + b) % N = (a + b) % N := by
  conv_rhs => rw [Int.add_emod]
  rw [Int.add_emod (a % N) b, Int.emod_emod_of_dvd _ dvd_rfl]

lemma emod_sub_emod_cancel (N a b : ℤ) : (a % N - b) % N = (a - b) % N := by
  conv_rhs => rw [Int.sub_emod]
  rw [Int.sub_emod (a % N) b, Int.emod_emod_of_dvd _ dvd_rfl]

lemma iterate_next_wave_eq (Ns : ℤ) (hN : 1 ≤ Ns) :
    ∀ (k : ℕ) (c : ℤ), 0 ≤ c → c < Ns → iterate_next_wave Ns k c = (c + k) % Ns := by
  intro k
  induction k with
  | zero =>
    intro c hc0 hcN
    show c = (c + ((0 : ℕ) : ℤ)) % Ns
    rw [Nat.cast_zero, add_zero, Int.emod_eq_of_lt hc0 hcN]
  | succ k ih =>
    intro c hc0 hcN
    show iterate_next_wave Ns k (next_wave_index Ns c) = _
    obtain ⟨hb0, hbN⟩ := next_wave_index_bounds Ns c hN
    rw [ih _ hb0 hbN]
    unfold next_wave_index
    rw [emod_add_emod_cancel]
    congr 1
    push_cast
    ring

end Vezda

/-! ## Theorems for claims C3, C4, C8 -/

/-- **C3.** For every `N ≥ 1` and every cursor `c ∈ [0, N)`, applying
`next_wave`'s cursor update followed by `previous_wave`'s (or vice versa)
restores the original cursor value `c`. -/
theorem C3_advance_retreat_inverse (N c : ℤ) (hN : 1 ≤ N) (hc0 : 0 ≤ c) (hcN : c < N) :
    Vezda.previous_wave_index N (Vezda.next_wave_index N c) = c ∧
    Vezda.next_wave_index N (Vezda.previous_wave_index N c) = c := by
  unfold Vezda.previous_wave_index Vezda.next_wave_index
  constructor
  · rw [Vezda.emod_sub_emod_cancel]
    have h : c + 1 - 1 = c := by ring
    rw [h, Int.emod_eq_of_lt hc0 hcN]
  · rw [Vezda.emod_add_emod_cancel]
    have h : c - 1 + 1 = c := by ring
    rw [h, Int.emod_eq_of_lt hc0 hcN]

/-- Witness for C3 at `N = 5`, `c = 4`. -/
theorem C3_advance_retreat_inverse_witness :
    Vezda.previous_wave_index 5 (Vezda.next_wave_index 5 4) = 4 ∧
    Vezda.next_wave_index 5 (Vezda.previous_wave_index 5 4) = 4 :=
  C3_advance_retreat_inverse 5 4 (by decide) (by decide) (by decide)

/-- **C4.** For every `N ≥ 1` and starting cursor `c ∈ [0, N)`, applying the
advance operation (`next_wave`) exactly `N` times returns the cursor to `c`. -/
theorem C4_advance_N_times_identity (N : ℤ) (c : ℤ) (hN : 1 ≤ N)
    (hc0 : 0 ≤ c) (hcN : c < N) :
    Vezda.iterate_next_wave N N.toNat c = c := by
  rw [Vezda.iterate_next_wave_eq N hN N.toNat c hc0 hcN]
  have h : c + N = c + N * 1 := by ring
  rw [Int.toNat_of_nonneg (by omega), h, Int.add_mul_emod_self_left,
    Int.emod_eq_of_lt hc0 hcN]

/-- Witness for C4 at `N = 3`, `c = 2`. -/
theorem C4_advance_N_times_identity_witness :
    Vezda.iterate_next_wave 3 (3 : ℤ).toNat 2 = 2 :=
  C4_advance_N_times_identity 3 2 (by decide) (by decide) (by decide)

/-- **C8.** With `reciprocal = None` the `'r'`-key switch never changes the
dataset index: starting from the initial index 0, any number of
`switch_experiments` events (of any key) leaves it at 0.  With two datasets
supplied, each `'r'` event toggles strictly between 0 and 1, and after `k`
successive switch events from 0 the index is `k % 2` (a period-2 cycle). -/
theorem C8_switch_experiments_cycle :
    (∀ key : String, Vezda.switch_experiments_index key false 0 = 0) ∧
    (∀ k : ℕ, Vezda.iterate_switch false k 0 = 0) ∧
    Vezda.switch_index true 0 = 1 ∧ Vezda.switch_index true 1 = 0 ∧
    (∀ k : ℕ, Vezda.iterate_switch true k 0 = k % 2) := by
  refine ⟨?_, ?_, rfl, rfl, ?_⟩
  · intro key
    unfold Vezda.switch_experiments_index Vezda.num_experiments
    by_cases h : key = "r" <;> simp [h]
  · intro k
    induction k with
    | zero => rfl
    | succ k ih => exact ih
  · have step : ∀ (k : ℕ) (i : ℕ), i < 2 →
        Vezda.iterate_switch true k i = (i + k) % 2 := by
      intro k
      induction k with
      | zero => intro i hi; simp [Vezda.iterate_switch]; omega
      | succ k ih =>
        intro i hi
        show Vezda.iterate_switch true k (Vezda.switch_index true i) = _
        have hs : Vezda.switch_index true i = (i + 1) % 2 := rfl
        rw [hs, ih ((i + 1) % 2) (Nat.mod_lt _ (by omega))]
        omega
    intro k
    have := step k 0 (by omega)
    simpa using this

/-! ## Theorems for claims C1, C2, C5, C9, C10 -/

/-- **C1, counterexample.** The claim that render operations never mutate the
supplied data array is false: `plotWiggles` on the 2-trace stack
`[[0, 2], [0, 1]]` divides the array in place by the scale factor 2, and
`image_viewer` (default parameters, `vmax = 1`) overwrites the entry 2 of
`[[2]]` with `vmin = 0` in place. -/
theorem C1_mutation_counterexample :
    (Vezda.plotWigglesRun [[0, 2], [0, 1]]).outX ≠ [[0, 2], [0, 1]] ∧
    Vezda.image_viewer_clip Vezda.default_params [[2]] ≠ [[2]] := by
  have hsf : Vezda.scaleFactor [[0, 2], [0, 1]] = 2 := by
    simp [Vezda.scaleFactor, Vezda.ptp, Vezda.listMax, Vezda.listMin,
      List.foldl, max_def, min_def]
  constructor
  · rw [Vezda.plotWigglesRun_small [[0, 2], [0, 1]] (by norm_num) (by norm_num),
      if_pos (by rw [hsf]; norm_num)]
    show Vezda.divideAll [[0, 2], [0, 1]] (Vezda.scaleFactor [[0, 2], [0, 1]]) ≠ _
    rw [hsf]
    simp [Vezda.divideAll]
  · simp [Vezda.image_viewer_clip, Vezda.default_params]

/-- **C1, amended.** The render operations can mutate the supplied arrays.
`plotWiggles` leaves `X` unchanged exactly in the no-rescale cases — a single
trace (`N = 1`), more than 70 traces (raster branch), or zero maximal
peak-to-peak displacement — and otherwise (for `2 ≤ N ≤ 70` with nonzero
scale factor) divides every entry in place by the scale factor.
`image_viewer` leaves the image unchanged when no entry exceeds `vmax`. -/
theorem C1_mutation_characterization (X vol : List (List ℚ)) (pp : Vezda.PlotParams)
    (h2 : ∀ row ∈ vol, ∀ v ∈ row, v ≤ pp.vmax) :
    ((X.length = 1 ∨ 70 < X.length ∨ Vezda.scaleFactor X = 0) →
      (Vezda.plotWigglesRun X).outX = X) ∧
    Vezda.image_viewer_clip pp vol = vol ∧
    (2 ≤ X.length → X.length ≤ 70 → Vezda.scaleFactor X ≠ 0 →
      (Vezda.plotWigglesRun X).outX = Vezda.divideAll X (Vezda.scaleFactor X)) := by
  refine ⟨?_, ?_, ?_⟩
  · rintro (h | h | h)
    · rw [Vezda.plotWigglesRun_single X (by omega)]
    · rw [Vezda.plotWigglesRun_large X h]
    · by_cases h1 : 1 < X.length
      · by_cases h18 : X.length ≤ 18
        · rw [Vezda.plotWigglesRun_small X h1 h18, if_neg (not_not_intro h)]
        · by_cases h70 : X.length ≤ 70
          · rw [Vezda.plotWigglesRun_mid X (by omega) h70, if_neg (not_not_intro h)]
          · rw [Vezda.plotWigglesRun_large X (by omega)]
      · rw [Vezda.plotWigglesRun_single X h1]
  · apply Vezda.map_eq_self
    intro row hrow
    apply Vezda.map_eq_self
    intro v hv
    exact if_neg (not_lt.mpr (h2 row hrow v hv))
  · intro hlo hhi hs
    by_cases h18 : X.length ≤ 18
    · rw [Vezda.plotWigglesRun_small X (by omega) h18, if_pos hs]
    · rw [Vezda.plotWigglesRun_mid X (by omega) hhi, if_pos hs]

/-- Witness for C1 (amended) at `X = [[3, 4]]` (single trace) and
`vol = [[0], [1]]` with the default `vmax = 1`. -/
theorem C1_mutation_characterization_witness :
    (Vezda.plotWigglesRun [[3, 4]]).outX = [[3, 4]] ∧
    Vezda.image_viewer_clip Vezda.default_params [[0], [1]] = [[0], [1]] :=
  ⟨(C1_mutation_characterization [[3, 4]] [[0], [1]] Vezda.default_params
      (by decide)).1 (Or.inl rfl),
   (C1_mutation_characterization [[3, 4]] [[0], [1]] Vezda.default_params
      (by decide)).2.1⟩

/-- **C2, counterexample.** The claim's first bucket ("if `N ≤ 18` the stack
is drawn as offset-stacked line plots with per-trace y-tick labels") fails at
`N = 1`: a single-trace stack takes the `N == 1` branch of `plotWiggles`,
which draws one filled line plot without the offset-stacking loop and without
calling `set_yticks`/`set_yticklabels`. -/
theorem C2_single_trace_counterexample :
    ([[0, 1]] : List (List ℚ)).length ≤ 18 ∧
    ¬ ((Vezda.plotWigglesRun [[0, 1]]).stackedLines = true ∧
       (Vezda.plotWigglesRun [[0, 1]]).yticksSet = true) := by
  decide

/-- **C2, amended.** For a stack of `N` traces: if `2 ≤ N ≤ 18` it is drawn
as offset-stacked line plots with per-trace y-tick labels; if `19 ≤ N ≤ 70`
as offset-stacked line plots without setting individual tick labels; if
`N > 70` as a rasterized colormapped grid (`pcolormesh`) instead of stacked
lines; and if `N = 1` as a single filled line plot (no stacking loop, no
per-trace tick labels, no raster grid). -/
theorem C2_threshold_policy (X : List (List ℚ)) :
    (2 ≤ X.length ∧ X.length ≤ 18 →
      (Vezda.plotWigglesRun X).stackedLines = true ∧
      (Vezda.plotWigglesRun X).yticksSet = true ∧
      (Vezda.plotWigglesRun X).rasterGrid = false) ∧
    (19 ≤ X.length ∧ X.length ≤ 70 →
      (Vezda.plotWigglesRun X).stackedLines = true ∧
      (Vezda.plotWigglesRun X).yticksSet = false ∧
      (Vezda.plotWigglesRun X).rasterGrid = false) ∧
    (70 < X.length →
      (Vezda.plotWigglesRun X).rasterGrid = true ∧
      (Vezda.plotWigglesRun X).stackedLines = false) ∧
    (X.length = 1 →
      (Vezda.plotWigglesRun X).stackedLines = false ∧
      (Vezda.plotWigglesRun X).yticksSet = false ∧
      (Vezda.plotWigglesRun X).rasterGrid = false) := by
  refine ⟨?_, ?_, ?_, ?_⟩
  · rintro ⟨hlo, hhi⟩
    rw [Vezda.plotWigglesRun_small X (by omega) hhi]
    by_cases hs : Vezda.scaleFactor X = 0
    · rw [if_neg (not_not_intro hs)]
      exact ⟨rfl, rfl, rfl⟩
    · rw [if_pos hs]
      exact ⟨rfl, rfl, rfl⟩
  · rintro ⟨hlo, hhi⟩
    rw [Vezda.plotWigglesRun_mid X (by omega) hhi]
    by_cases hs : Vezda.scaleFactor X = 0
    · rw [if_neg (not_not_intro hs)]
      exact ⟨rfl, rfl, rfl⟩
    · rw [if_pos hs]
      exact ⟨rfl, rfl, rfl⟩
  · intro h
    rw [Vezda.plotWigglesRun_large X h]
    exact ⟨rfl, rfl⟩
  · intro h
    rw [Vezda.plotWigglesRun_single X (by omega)]
    exact ⟨rfl, rfl, rfl⟩

/-- Witness for C2 (amended) at the boundary stack sizes 18, 19, 71 and at
the single-trace size 1. -/
theorem C2_threshold_policy_witness :
    (Vezda.plotWigglesRun (List.replicate 18 ([0] : List ℚ))).yticksSet = true ∧
    (Vezda.plotWigglesRun (List.replicate 19 ([0] : List ℚ))).yticksSet = false ∧
    (Vezda.plotWigglesRun (List.replicate 19 ([0] : List ℚ))).stackedLines = true ∧
    (Vezda.plotWigglesRun (List.replicate 71 ([0] : List ℚ))).rasterGrid = true ∧
    (Vezda.plotWigglesRun [[0]]).stackedLines = false :=
  ⟨((C2_threshold_policy (List.replicate 18 [0])).1 ⟨by simp, by simp⟩).2.1,
   ((C2_threshold_policy (List.replicate 19 [0])).2.1 ⟨by simp, by simp⟩).2.1,
   ((C2_threshold_policy (List.replicate 19 [0])).2.1 ⟨by simp, by simp⟩).1,
   ((C2_threshold_policy (List.replicate 71 [0])).2.2.1 (by simp)).1,
   ((C2_threshold_policy [[0]]).2.2.2 rfl).1⟩

/-- **C5.** The peak-normalization divide is never a division by zero: for a
single-trace stack (`N = 1`) the divide branch is not reached at all; for any
stack whose maximal peak-to-peak displacement (`scaleFactor`) is zero the
divide is skipped and the traces are rendered unscaled; and an all-zero frame
set has zero `scaleFactor`. -/
theorem C5_no_zero_division (X : List (List ℚ)) :
    (X.length = 1 →
      (Vezda.plotWigglesRun X).divideInvoked = false ∧
      (Vezda.plotWigglesRun X).outX = X) ∧
    (Vezda.scaleFactor X = 0 →
      (Vezda.plotWigglesRun X).divideInvoked = false ∧
      (Vezda.plotWigglesRun X).outX = X) ∧
    ((∀ r ∈ X, ∀ v ∈ r, v = (0 : ℚ)) → Vezda.scaleFactor X = 0) := by
  refine ⟨?_, ?_, Vezda.scaleFactor_of_all_zero X⟩
  · intro h
    rw [Vezda.plotWigglesRun_single X (by omega)]
    exact ⟨rfl, rfl⟩
  · intro hs
    by_cases h1 : 1 < X.length
    · by_cases h18 : X.length ≤ 18
      · rw [Vezda.plotWigglesRun_small X h1 h18, if_neg (not_not_intro hs)]
        exact ⟨rfl, rfl⟩
      · by_cases h70 : X.length ≤ 70
        · rw [Vezda.plotWigglesRun_mid X (by omega) h70, if_neg (not_not_intro hs)]
          exact ⟨rfl, rfl⟩
        · rw [Vezda.plotWigglesRun_large X (by omega)]
          exact ⟨rfl, rfl⟩
    · rw [Vezda.plotWigglesRun_single X h1]
      exact ⟨rfl, rfl⟩

/-- Witness for C5 at the all-zero 2-trace stack `[[0, 0], [0, 0]]` and the
single-trace stack `[[5]]`. -/
theorem C5_no_zero_division_witness :
    (Vezda.plotWigglesRun [[0, 0], [0, 0]]).divideInvoked = false ∧
    (Vezda.plotWigglesRun [[5]]).outX = [[5]] :=
  ⟨((C5_no_zero_division [[0, 0], [0, 0]]).2.1
      (Vezda.scaleFactor_of_all_zero [[0, 0], [0, 0]] (by decide))).1,
   ((C5_no_zero_division [[5]]).1 rfl).2⟩

/-- **C9.** Redrawing is idempotent given the same cursor: running
`plotWiggles` a second time on the array state left by a first run produces
the identical render record — same drawing mode, same tick/divide behaviour,
and the same final array contents — because a rescaled stack has maximal
peak-to-peak displacement 1 and is therefore divided by 1 the second time. -/
theorem C9_redraw_idempotent (X : List (List ℚ)) :
    Vezda.plotWigglesRun ((Vezda.plotWigglesRun X).outX) = Vezda.plotWigglesRun X := by
  by_cases h1 : 1 < X.length
  · by_cases h18 : X.length ≤ 18
    · by_cases hs : Vezda.scaleFactor X = 0
      · have e : Vezda.plotWigglesRun X = ⟨true, true, false, false, X⟩ := by
          rw [Vezda.plotWigglesRun_small X h1 h18, if_neg (not_not_intro hs)]
        rw [e]
        exact e
      · have hpos : 0 < Vezda.scaleFactor X := Vezda.scaleFactor_pos X hs
        have e : Vezda.plotWigglesRun X =
            ⟨true, true, false, true, Vezda.divideAll X (Vezda.scaleFactor X)⟩ := by
          rw [Vezda.plotWigglesRun_small X h1 h18, if_pos hs]
        rw [e]
        show Vezda.plotWigglesRun (Vezda.divideAll X (Vezda.scaleFactor X)) = _
        have hlen := Vezda.divideAll_length X (Vezda.scaleFactor X)
        have hsf : Vezda.scaleFactor (Vezda.divideAll X (Vezda.scaleFactor X)) = 1 := by
          rw [Vezda.scaleFactor_divideAll hpos X]
          exact div_self hs
        rw [Vezda.plotWigglesRun_small _ (by omega) (by omega),
          if_pos (by rw [hsf]; exact one_ne_zero), hsf, Vezda.divideAll_one]
    · by_cases h70 : X.length ≤ 70
      · by_cases hs : Vezda.scaleFactor X = 0
        · have e : Vezda.plotWigglesRun X = ⟨false, true, false, false, X⟩ := by
            rw [Vezda.plotWigglesRun_mid X (by omega) h70, if_neg (not_not_intro hs)]
          rw [e]
          exact e
        · have hpos : 0 < Vezda.scaleFactor X := Vezda.scaleFactor_pos X hs
          have e : Vezda.plotWigglesRun X =
              ⟨false, true, false, true, Vezda.divideAll X (Vezda.scaleFactor X)⟩ := by
            rw [Vezda.plotWigglesRun_mid X (by omega) h70, if_pos hs]
          rw [e]
          show Vezda.plotWigglesRun (Vezda.divideAll X (Vezda.scaleFactor X)) = _
          have hlen := Vezda.divideAll_length X (Vezda.scaleFactor X)
          have hsf : Vezda.scaleFactor (Vezda.divideAll X (Vezda.scaleFactor X)) = 1 := by
            rw [Vezda.scaleFactor_divideAll hpos X]
            exact div_self hs
          rw [Vezda.plotWigglesRun_mid _ (by omega) (by omega),
            if_pos (by rw [hsf]; exact one_ne_zero), hsf, Vezda.divideAll_one]
      · have e : Vezda.plotWigglesRun X = ⟨false, false, true, false, X⟩ :=
          Vezda.plotWigglesRun_large X (by omega)
        rw [e]
        exact e
  · have e : Vezda.plotWigglesRun X = ⟨false, false, false, false, X⟩ :=
      Vezda.plotWigglesRun_single X h1
    rw [e]
    exact e

/-- **C10.** In 2D rendering, `image_viewer` replaces every entry of the
supplied image strictly greater than `plotParams['vmax']` with
`plotParams['vmin']` (not with `vmax`) and leaves all other entries
unchanged; the replacement is what the supplied array holds after the call
(the mask assignment mutates it in place).  The concrete conjunct shows the
out-of-range value 2 becoming `vmin = 0`, not `vmax = 1`. -/
theorem C10_clip_replaces_with_vmin (pp : Vezda.PlotParams) (volume : List (List ℚ)) :
    List.Forall₂
      (List.Forall₂ (fun outv inv => outv = if inv > pp.vmax then pp.vmin else inv))
      (Vezda.image_viewer_clip pp volume) volume ∧
    Vezda.image_viewer_clip Vezda.default_params [[2]] = [[0]] := by
  constructor
  · apply Vezda.forall₂_map_self
    intro row _
    apply Vezda.forall₂_map_self
    intro v _
    rfl
  · decide

/-! ## Theorems for claims C6, C7 -/

/-- **C6.** For a single-trace label (`N = 1`) with empty amplitude unit,
`xu = "m"`, `yu = "m"`, 2D coordinates `(1.23, 4.56)`, receiver id 3 and flag
`'data'`, `set_ylabel` returns exactly
`"Amplitude [Receiver 3 @ (1.23 m, 4.56 m)]"`; with all unit strings empty it
returns `"Amplitude [Receiver 3 @ (1.23, 4.56)]"`. -/
theorem C6_single_receiver_label :
    Vezda.set_ylabel 1 (some [Rat.divInt 123 100, Rat.divInt 456 100]) 3
        Vezda.Flag.data { Vezda.default_params with xu := "m", yu := "m" } =
      "Amplitude [Receiver 3 @ (1.23 m, 4.56 m)]" ∧
    Vezda.set_ylabel 1 (some [Rat.divInt 123 100, Rat.divInt 456 100]) 3
        Vezda.Flag.data Vezda.default_params =
      "Amplitude [Receiver 3 @ (1.23, 4.56)]" := by
  decide

/-- **C7, counterexample.** The unit suffixes are not independent: with the
mixed combination `au = ""`, `xu = "m"`, `yu = ""` (which the claim says
should yield a caption with the id, both coordinates and an `xu` suffix
only), `set_ylabel` falls through every formatting branch and returns the
bare base label `"Receiver"`, which does not even contain the id `3`. -/
theorem C7_mixed_units_counterexample :
    Vezda.set_ylabel 1 (some [Rat.divInt 123 100, Rat.divInt 456 100]) 3
        Vezda.Flag.data { Vezda.default_params with xu := "m" } = "Receiver" ∧
    ¬ (String.toList "3" <:+: String.toList (Vezda.set_ylabel 1
        (some [Rat.divInt 123 100, Rat.divInt 456 100]) 3 Vezda.Flag.data
        { Vezda.default_params with xu := "m" })) := by
  decide

set_option maxHeartbeats 3000000 in
/-- **C7, amended.** In 2D label/title composition the amplitude unit `au`
acts independently, but the coordinate units act jointly, all-or-nothing:
`set_ylabel` (N = 1, flag `'data'`) appends both coordinate suffixes iff
`xu` and `yu` are both non-empty, omits both iff both are empty, and for a
mixed combination returns the bare base label (no amplitude, id or
coordinates at all); `wave_title` (flag `'data'`, 2D source point) appends
both suffixes iff `xu` and `yu` are both non-empty and otherwise omits both
(while keeping id and coordinates). -/
theorem C7_unit_suffix_policy (au xu yu : String) (x y : ℚ) (i : ℤ) (ns : ℕ) :
    (xu ≠ "" ∧ yu ≠ "" →
      Vezda.set_ylabel 1 (some [x, y]) i Vezda.Flag.data
          { Vezda.default_params with au := au, xu := xu, yu := yu } =
        if au ≠ "" then
          "Amplitude (" ++ au ++ ") [" ++ "Receiver" ++ " " ++ toString i ++
            " @ (" ++ Vezda.fmt2 x ++ " " ++ xu ++ ", " ++ Vezda.fmt2 y ++
            " " ++ yu ++ ")]"
        else
          "Amplitude [" ++ "Receiver" ++ " " ++ toString i ++ " @ (" ++
            Vezda.fmt2 x ++ " " ++ xu ++ ", " ++ Vezda.fmt2 y ++ " " ++ yu ++
            ")]") ∧
    (xu = "" ∧ yu = "" →
      Vezda.set_ylabel 1 (some [x, y]) i Vezda.Flag.data
          { Vezda.default_params with au := au, xu := xu, yu := yu } =
        if au ≠ "" then
          "Amplitude (" ++ au ++ ") [" ++ "Receiver" ++ " " ++ toString i ++
            " @ (" ++ Vezda.fmt2 x ++ ", " ++ Vezda.fmt2 y ++ ")]"
        else
          "Amplitude [" ++ "Receiver" ++ " " ++ toString i ++ " @ (" ++
            Vezda.fmt2 x ++ ", " ++ Vezda.fmt2 y ++ ")]") ∧
    ((xu = "" ∧ yu ≠ "") ∨ (xu ≠ "" ∧ yu = "") →
      Vezda.set_ylabel 1 (some [x, y]) i Vezda.Flag.data
          { Vezda.default_params with au := au, xu := xu, yu := yu } =
        "Receiver") ∧
    (xu ≠ "" ∧ yu ≠ "" →
      Vezda.wave_title i ns (some [x, y]) Vezda.Flag.data
          { Vezda.default_params with au := au, xu := xu, yu := yu } =
        some ("Data" ++ " [Source " ++ toString i ++ " @ (" ++ Vezda.fmt2 x ++
          " " ++ xu ++ ", " ++ Vezda.fmt2 y ++ " " ++ yu ++ ")]")) ∧
    (¬ (xu ≠ "" ∧ yu ≠ "") →
      Vezda.wave_title i ns (some [x, y]) Vezda.Flag.data
          { Vezda.default_params with au := au, xu := xu, yu := yu } =
        some ("Data" ++ " [Source " ++ toString i ++ " @ (" ++ Vezda.fmt2 x ++
          ", " ++ Vezda.fmt2 y ++ ")]")) := by
  refine ⟨?_, ?_, ?_, ?_, ?_⟩
  · rintro ⟨hx, hy⟩
    by_cases hau : au = "" <;>
      simp [Vezda.set_ylabel, Vezda.default_params, hau, hx, hy]
  · rintro ⟨hx, hy⟩
    by_cases hau : au = "" <;>
      simp [Vezda.set_ylabel, Vezda.default_params, hau, hx, hy]
  · rintro (⟨hx, hy⟩ | ⟨hx, hy⟩) <;>
      simp [Vezda.set_ylabel, Vezda.default_params, hx, hy]
  · rintro ⟨hx, hy⟩
    simp [Vezda.wave_title, Vezda.default_params, hx, hy]
  · intro h
    simp [Vezda.wave_title, Vezda.default_params, h]

/-- Witness for C7 (amended): the mixed combination `xu = "m"`, `yu = ""`
collapses `set_ylabel` to `"Receiver"` and drops both coordinate suffixes
from `wave_title`. -/
theorem C7_unit_suffix_policy_witness :
    Vezda.set_ylabel 1 (some [Rat.divInt 123 100, Rat.divInt 456 100]) 3
        Vezda.Flag.data
        { Vezda.default_params with au := "", xu := "m", yu := "" } =
      "Receiver" ∧
    Vezda.wave_title 3 10 (some [Rat.divInt 123 100, Rat.divInt 456 100])
        Vezda.Flag.data
        { Vezda.default_params with au := "", xu := "m", yu := "" } =
      some ("Data" ++ " [Source " ++ toString (3 : ℤ) ++ " @ (" ++
        Vezda.fmt2 (Rat.divInt 123 100) ++ ", " ++
        Vezda.fmt2 (Rat.divInt 456 100) ++ ")]") :=
  ⟨(C7_unit_suffix_policy "" "m" "" (Rat.divInt 123 100) (Rat.divInt 456 100)
      3 10).2.2.1 (Or.inr ⟨by decide, rfl⟩),
   (C7_unit_suffix_policy "" "m" "" (Rat.divInt 123 100) (Rat.divInt 456 100)
      3 10).2.2.2.2 (by decide)⟩
